import Mathlib

/-!
# Verification of the girder_worker / gaia task and docker-executor core

Shallow embedding of:
* `gaia/core/task.py` — the port-based dataflow `GTask` (input binding,
  memoized output retrieval, dirty-flag propagation handler);
* `girder_worker/plugins/docker/executor.py` — container-argument template
  expansion (`_expand_args`, `_transform_path`), output-spec validation
  (`validate_task_outputs`), FIFO/pipe provisioning (`_setup_pipes`) and
  post-exit output collection (the tail of `run`).

Python dictionaries are embedded as association lists in insertion order
(`List (String × α)`, unique keys, `lookup` = key access); Python values that
flow through the code are embedded as `PyVal`; exceptions become explicit
error results.
-/

/-- A Python value as it flows through the embedded code: a string, a
boolean, or `None`.  (These are the only shapes the modelled code paths
put into data caches and bindings.) -/
inductive PyVal where
  | str (s : String)
  | bool (b : Bool)
  | none
deriving DecidableEq, Repr

/-- Python truthiness for `PyVal` (`bool(v)`): a string is truthy iff
non-empty, a boolean is itself, `None` is falsy. -/
def PyVal.truthy : PyVal → Bool
  | .str s => s ≠ ""
  | .bool b => b
  | .none => false

/-- Python `str(v)` for `PyVal`. -/
def PyVal.toStr : PyVal → String
  | .str s => s
  | .bool b => if b then "True" else "False"
  | .none => "None"

/-! ## gaia/core/task.py -/

/-- Error raised by the gaia `GTask` port operations.  `invalidPort name`
models `ValueError("Invalid port name '<name>'")` raised by
`GTask.set_input` and `GTask.get_output`; the specification's taxonomy calls
this error `InvalidPortError`. -/
inductive GaiaErr where
  | invalidPort (name : String)
deriving DecidableEq, Repr

/-- The observable state of a `gaia.core.task.Task` object: the declared
input/output port names (in declaration order, from `_port_dict`), the two
data caches `_input_data` / `_output_data`, and the backing field `_dirty`
of the `dirty` property installed by `GTask.add_property`. -/
structure GTask where
  inputs : List String
  outputs : List String
  input_data : List (String × PyVal)
  output_data : List (String × PyVal)
  dirty : Bool
deriving DecidableEq, Repr

/-- The keyword-argument dictionary `set_input` iterates over: the caller's
keyword arguments followed by the positional arguments inserted under the
keys `str(0), str(1), ...` (`for i, a in enumerate(arg): kw[str(i)] = a`;
dict iteration is insertion order). -/
def GTask.setInputKw (args : List PyVal) (kw : List (String × PyVal)) :
    List (String × PyVal) :=
  kw ++ (args.enum.map fun p => (toString p.1, p.2))

/-- The loop body of `GTask.set_input` over the merged keyword dictionary.
For each `(name, value)`: an undeclared `name` raises
`ValueError("Invalid port name ...")` (leaving the object as mutated so
far); for a declared name the code computes `data` (possibly through
`Port.fetch`, exceptions swallowed) but never assigns it anywhere — only
`self._dirty = True` is executed, writing the property's backing field
directly.  Returns the task state at exit together with the raised error,
if any. -/
def GTask.setInputGo (t : GTask) : List (String × PyVal) → GTask × Option GaiaErr
  | [] => (t, Option.none)
  | (name, _) :: rest =>
    if name ∈ t.inputs then
      GTask.setInputGo { t with dirty := true } rest
    else
      (t, Option.some (.invalidPort name))

/-- Method `set_input(*arg, **kw)` of `Task`. -/
def GTask.setInput (t : GTask) (args : List PyVal) (kw : List (String × PyVal)) :
    GTask × Option GaiaErr :=
  t.setInputGo (GTask.setInputKw args kw)

/-- Method `get_input(name)` of `Task`: `self._input_data.get(name)`. -/
def GTask.getInput (t : GTask) (name : String) : Option PyVal :=
  t.input_data.lookup name

/-- Method `run` of the base class `Task`: the reference implementation only
clears the dirty flag (`self.dirty = False`). -/
def GTask.run (t : GTask) : GTask :=
  { t with dirty := false }

/-- Method `get_output(name)` of `Task`: raises on an undeclared output name; if dirty,
invokes `run()` first; then serves `self._output_data.get(name)`.  The
third component counts how many times `run()` was invoked by this call. -/
def GTask.getOutput (t : GTask) (name : String) :
    GTask × Except GaiaErr (Option PyVal) × Nat :=
  if name ∈ t.outputs then
    if t.dirty then
      let t' := t.run
      (t', Except.ok (t'.output_data.lookup name), 1)
    else
      (t, Except.ok (t.output_data.lookup name), 0)
  else
    (t, Except.error (.invalidPort name), 0)

/-- Handler `_reset_downstream(self, _, isdirty, *args)` run on a consuming
task whose upstream's dirty value changed to `isdirty`: the consumer's
dirty flag becomes true only when `isdirty` holds and it was not already
dirty (`if isdirty and not self.dirty: self._reset()`). -/
def GTask.resetDownstream (selfDirty isdirty : Bool) : Bool :=
  if isdirty && !selfDirty then true else selfDirty

/-- Whether `GTask._reset_downstream` fires `_reset` (i.e. performs a
downstream-propagation step) for the given consumer/upstream dirty values. -/
def GTask.resetFires (selfDirty isdirty : Bool) : Bool :=
  isdirty && !selfDirty

/-!
Dirty-flag propagation over a task graph.

Modelled from the spec: `gaia/core/base.py` (`GaiaObject.add_property`, the
`on_change` notification machinery) is not part of the sources; per §4.1 of
the specification, setting a task's `dirty` property to true "fires a
downstream-notification step that marks all tasks consuming this task's
outputs as dirty" — each consumer runs `GTask._reset_downstream` (which is
in the sources), and a consumer that does get marked re-fires the same
notification to its own consumers (its `_reset` assigns through the same
property).  Tasks are indexed `0, ..., n-1`; `cons` maps a task index to
the indices of the tasks consuming its outputs; the state is the list of
dirty flags. -/
def setDirtyTrue (cons : List (List Nat)) : Nat → List Bool → Nat → List Bool
  | 0, st, _ => st
  | fuel + 1, st, t =>
    let st1 := st.set t true
    (cons.getD t []).foldl
      (fun s c =>
        if GTask.resetFires (s.getD c false) true then
          setDirtyTrue cons fuel (s.set c true) c
        else s)
      st1

/-- A dirty-state is downstream-closed when every consumer of a dirty task
is itself dirty (the invariant the propagation step establishes). -/
def dirtyClosed (cons : List (List Nat)) (st : List Bool) : Prop :=
  ∀ i < st.length, st.getD i false = true →
    ∀ c ∈ cons.getD i [], st.getD c false = true

instance (cons : List (List Nat)) (st : List Bool) :
    Decidable (dirtyClosed cons st) := by
  unfold dirtyClosed
  infer_instance

/-! ## girder_worker/plugins/docker/executor.py -/

/-- Constant `DATA_VOLUME`: the fixed in-container mount root. -/
def DATA_VOLUME : String := "/mnt/girder_worker/data"

/-- Python `s.startswith(pre)`. -/
def pyStartsWith (s pre : String) : Bool :=
  pre.data.isPrefixOf s.data

/-- Python `s.endswith(suf)`. -/
def pyEndsWith (s suf : String) : Bool :=
  suf.data.isSuffixOf s.data

/-- Errors raised by the docker executor code paths.
`taskSpecValidation` models `TaskSpecValidationError`; `exc` models a plain
Python `Exception(msg)` (the spec's `UnresolvedTemplateError` /
`OutputMissingError` / streaming-path errors name specific such messages);
`keyError` models a `KeyError` from a failed dict access. -/
inductive ExecErr where
  | taskSpecValidation (msg : String)
  | exc (msg : String)
  | keyError (key : String)
deriving DecidableEq, Repr

/-- One task input/output port spec dictionary (the relevant keys).  The
code reads `ti['id']` (falling back to `ti['name']`); well-formed specs
carry their id, embedded here as the field `id`. -/
structure IOSpec where
  id : String
  target : Option String := Option.none
  stream : Bool := false
  path : Option String := Option.none
  arg : Option String := Option.none
deriving DecidableEq, Repr

/-- A resolved input/output binding dictionary: `script_data` holds the
resolved value; `data` is present for inline bindings. -/
structure Binding where
  script_data : PyVal := PyVal.none
  data : Option PyVal := Option.none
deriving DecidableEq, Repr

/-- Split a character list into the groups separated by `/`. -/
def splitSlash : List Char → List (List Char)
  | [] => [[]]
  | c :: rest =>
    match splitSlash rest with
    | [] => [[c]]
    | g :: gs => if c = '/' then [] :: g :: gs else (c :: g) :: gs

/-- Path components of a POSIX path: split on `/`, dropping empty
components (the effect `os.path` normalization has on well-formed absolute
paths). -/
def splitPath (s : String) : List String :=
  ((splitSlash s.data).map String.mk).filter (· ≠ "")

/-- Length of the longest common prefix of two component lists. -/
def commonPrefixLen : List String → List String → Nat
  | a :: as, b :: bs => if a = b then commonPrefixLen as bs + 1 else 0
  | _, _ => 0

/-- `os.path.relpath(path, start)` for absolute, already-normalized POSIX
paths (the shapes the executor passes: `script_data` paths and the
absolute scratch directory): strip the common component prefix, ascend
with `..` for what remains of `start`, descend into what remains of
`path`. -/
def relpath (path start : String) : String :=
  let p := splitPath path
  let s := splitPath start
  let k := commonPrefixLen p s
  let parts := List.replicate (s.length - k) ".." ++ p.drop k
  if parts.isEmpty then "." else String.intercalate "/" parts

/-- `os.path.join(a, b)` for two components: an absolute `b` discards `a`;
otherwise the two are joined with a single separator. -/
def joinPath (a b : String) : String :=
  if pyStartsWith b "/" then b
  else if a = "" then b
  else if pyEndsWith a "/" then a ++ b
  else a ++ "/" ++ b

/-- Capture step of the regexes `\$input\{([^}]+)\}` / `\$flag\{([^}]+)\}`
once the literal prefix has been consumed: take a non-empty run of
non-`}` characters followed by `}`; return the capture and the remaining
characters. -/
def takeCapture (cs : List Char) : Option (List Char × List Char) :=
  let cap := cs.takeWhile (· ≠ '}')
  match cs.dropWhile (· ≠ '}') with
  | '}' :: rs => if cap.isEmpty then Option.none else Option.some (cap, rs)
  | _ => Option.none

/-- `re.findall` for the pattern `<pre>([^}]+)\}`: left-to-right,
non-overlapping; at each position either the whole pattern matches (the
capture is recorded and scanning resumes after the closing brace) or the
scan advances one character. -/
def findTokensGo (pre : List Char) : Nat → List Char → List String
  | 0, _ => []
  | _, [] => []
  | fuel + 1, c :: rest =>
    if pre.isPrefixOf (c :: rest) then
      match takeCapture ((c :: rest).drop pre.length) with
      | Option.some (cap, rs) => String.mk cap :: findTokensGo pre fuel rs
      | Option.none => findTokensGo pre fuel rest
    else
      findTokensGo pre fuel rest

/-- All captures of `<pre>([^}]+)\}` in `s`, in order. -/
def findTokens (pre s : String) : List String :=
  findTokensGo pre.data s.data.length s.data

/-- Python `str.replace(pat, rep)` on character lists: replace every
non-overlapping occurrence of `pat`, left to right (`pat` non-empty). -/
def replaceAllGo (pat rep : List Char) : Nat → List Char → List Char
  | 0, s => s
  | _, [] => []
  | fuel + 1, c :: rest =>
    if pat.isPrefixOf (c :: rest) then
      rep ++ replaceAllGo pat rep fuel ((c :: rest).drop pat.length)
    else
      c :: replaceAllGo pat rep fuel rest

/-- Python `s.replace(pat, rep)` (all occurrences) on strings. -/
def pyReplace (s pat rep : String) : String :=
  if pat.data.isEmpty then s
  else String.mk (replaceAllGo pat.data rep.data s.data.length s.data)

/-- Scan for the first occurrence of `pat` and splice in `rep` there
(`pat` non-empty). -/
def replaceFirstGo (pat rep : List Char) : List Char → List Char
  | [] => []
  | c :: rest =>
    if pat.isPrefixOf (c :: rest) then
      rep ++ (c :: rest).drop pat.length
    else c :: replaceFirstGo pat rep rest

/-- Python `s.replace(pat, rep, 1)`: replace only the first occurrence. -/
def pyReplaceFirst (s pat rep : String) : String :=
  if pat.data.isEmpty then s
  else String.mk (replaceFirstGo pat.data rep.data s.data)

/-- `_transform_path(inputs, taskInputs, inputId, tmpDir)`: scan the task
input specs for the one whose id equals `inputId`; for a `filepath` target
return the bound path re-rooted under `DATA_VOLUME` (via the path's
location relative to the scratch directory), otherwise return the raw
`script_data` value; no matching spec raises
`Exception('No task input found with id = ' + inputId)`. -/
def transformPath (inputs : List (String × Binding))
    (taskInputs : List (String × IOSpec)) (inputId tmpDir : String) :
    Except ExecErr PyVal :=
  match taskInputs.find? (fun p => p.2.id = inputId) with
  | Option.some (_, ti) =>
    match inputs.lookup inputId with
    | Option.some b =>
      if ti.target = Option.some "filepath" then
        match b.script_data with
        | .str sd => .ok (.str (joinPath DATA_VOLUME (relpath sd tmpDir)))
        | v => .ok (.str (joinPath DATA_VOLUME (relpath v.toStr tmpDir)))
      else
        .ok b.script_data
    | Option.none => .error (.keyError inputId)
  | Option.none => .error (.exc ("No task input found with id = " ++ inputId))

/-- The `$input{...}` pass of `_expand_args` on one argument: for each
captured id, a bound id is replaced (every occurrence) by
`str(_transform_path(...))`; the reserved id `_tempdir` is replaced by
`DATA_VOLUME`; any other id is left untouched. -/
def expandInputTokens (inputs : List (String × Binding))
    (taskInputs : List (String × IOSpec)) (tmpDir : String) (arg : String) :
    Except ExecErr String :=
  (findTokens "$input\x7b" arg).foldlM
    (fun a id =>
      if (inputs.lookup id).isSome then
        (transformPath inputs taskInputs id tmpDir).map fun tv =>
          pyReplace a ("$input\x7b" ++ id ++ "\x7d") tv.toStr
      else if id = "_tempdir" then
        .ok (pyReplace a "$input\x7b_tempdir\x7d" DATA_VOLUME)
      else
        .ok a)
    arg

/-- The `$flag{...}` pass of `_expand_args` on one (already
input-expanded) argument: a bound, truthy id is replaced by the spec's
`arg` string (defaulting to the id itself); otherwise the token is
replaced by the empty string. -/
def expandFlagTokens (inputs : List (String × Binding))
    (taskInputs : List (String × IOSpec)) (arg : String) :
    Except ExecErr String :=
  (findTokens "$flag\x7b" arg).foldlM
    (fun a id =>
      match inputs.lookup id with
      | Option.some b =>
        if b.script_data.truthy then
          match taskInputs.lookup id with
          | Option.some ti => .ok (pyReplace a ("$flag\x7b" ++ id ++ "\x7d") (ti.arg.getD id))
          | Option.none => .error (.keyError id)
        else
          .ok (pyReplace a ("$flag\x7b" ++ id ++ "\x7d") "")
      | Option.none => .ok (pyReplace a ("$flag\x7b" ++ id ++ "\x7d") ""))
    arg

/-- `_expand_args(args, inputs, taskInputs, tmpDir)`: expand each template
argument (inputs pass then flags pass) and keep only the non-empty
results. -/
def expandArgs (inputs : List (String × Binding))
    (taskInputs : List (String × IOSpec)) (tmpDir : String) :
    List String → Except ExecErr (List String)
  | [] => .ok []
  | arg :: rest => do
    let a1 ← expandInputTokens inputs taskInputs tmpDir arg
    let a2 ← expandFlagTokens inputs taskInputs a1
    let tl ← expandArgs inputs taskInputs tmpDir rest
    if a2 ≠ "" then .ok (a2 :: tl) else .ok tl

/-- Function `validate_task_outputs(task_outputs)`: a `filepath`-target
output's path (explicit `path` or the port name) must not be absolute
unless it starts with `DATA_VOLUME + "/"`; every other output must be
named `_stdout` or `_stderr`; the first offender raises
`TaskSpecValidationError`. -/
def validateTaskOutputs : List (String × IOSpec) → Except ExecErr Unit
  | [] => .ok ()
  | (name, spec) :: rest =>
    if spec.target = Option.some "filepath" then
      if pyStartsWith (spec.path.getD name) "/" &&
          !pyStartsWith (spec.path.getD name) (DATA_VOLUME ++ "/") then
        .error (.taskSpecValidation
          ("Docker filepath output paths must either start with \"" ++
            DATA_VOLUME ++ "/\" or be specified relative to that directory."))
      else validateTaskOutputs rest
    else if name = "_stdout" ∨ name = "_stderr" then
      validateTaskOutputs rest
    else
      .error (.taskSpecValidation
        "Docker outputs must be either \"_stdout\", \"_stderr\", or filepath-target outputs.")

/-- Predicate stated by the specification for an invalid output
declaration: the output is neither named `_stdout` nor `_stderr` nor a
`filepath`-target port, or it is a `filepath`-target port whose path
(explicit `path` field, defaulting to the port name) is absolute but does
not lie under the mount root. -/
def specOutputViolation (name : String) (spec : IOSpec) : Prop :=
  (spec.target ≠ Option.some "filepath" ∧ name ≠ "_stdout" ∧ name ≠ "_stderr") ∨
    (spec.target = Option.some "filepath" ∧
      pyStartsWith (spec.path.getD name) "/" = true ∧
      pyStartsWith (spec.path.getD name) (DATA_VOLUME ++ "/") = false)

instance (name : String) (spec : IOSpec) : Decidable (specOutputViolation name spec) := by
  unfold specOutputViolation
  infer_instance

/-- Stream adapters and special-cased adapters registered by
`_setup_pipes` (constructors record which factory was called and on which
binding). -/
inductive Adapter where
  | fetch (b : Binding)
  | push (b : Binding)
  | memoryFetch (b : Binding) (data : PyVal)
  | accumulate (b : Binding) (key : String)
deriving DecidableEq, Repr

/-- Key of an entry in the `ipipes`/`opipes` dictionaries: a pipe path (or
one of the special names `_stdin`/`_stdout`/`_stderr`), or a host file
descriptor returned by `os.open`. -/
inductive PipeKey where
  | path (p : String)
  | fd (n : Nat)
deriving DecidableEq, Repr

/-- Record of one host-side `os.open` call made by `_setup_pipes`. -/
structure OpenCall where
  fd : Nat
  path : String
  rdonly : Bool
  nonblock : Bool
deriving DecidableEq, Repr

/-- Condition under which `make_pipe` creates a FIFO for port `id`: the
spec has `stream` set, the port has a bound value, and the target is
`filepath`. -/
def streamQual (id : String) (spec : IOSpec)
    (bindings : List (String × Binding)) : Prop :=
  spec.stream = true ∧ (bindings.lookup id).isSome = true ∧
    spec.target = Option.some "filepath"

instance (id : String) (spec : IOSpec) (bindings : List (String × Binding)) :
    Decidable (streamQual id spec bindings) := by
  unfold streamQual
  infer_instance

/-- Helper `make_pipe(id, spec, bindings)` of `_setup_pipes`: for a
qualifying streaming filepath port, an absolute path raises
`Exception('Streaming filepaths must be relative.')`; otherwise
`os.mkfifo` is called on the path joined under the scratch directory and
that path is returned.  Non-qualifying specs create nothing. -/
def makePipe (tempdir id : String) (spec : IOSpec)
    (bindings : List (String × Binding)) : Except ExecErr (Option String) :=
  if streamQual id spec bindings then
    if pyStartsWith (spec.path.getD id) "/" then
      .error (.exc "Streaming filepaths must be relative.")
    else
      .ok (Option.some (joinPath tempdir (spec.path.getD id)))
  else
    .ok Option.none

/-- The stream-input loop of `_setup_pipes`: each created input FIFO is
registered in `ipipes` under its path with a stream-fetch adapter for the
port's binding — and is not opened host-side. -/
def pipeInputs (tempdir : String) (inputs : List (String × Binding)) :
    List (String × IOSpec) →
    Except ExecErr (List String × List (PipeKey × Adapter))
  | [] => .ok ([], [])
  | (id, spec) :: rest =>
    match makePipe tempdir id spec inputs with
    | Except.error e => .error e
    | Except.ok Option.none => pipeInputs tempdir inputs rest
    | Except.ok (Option.some p) =>
      match inputs.lookup id with
      | Option.none => .error (.keyError id)
      | Option.some b =>
        match pipeInputs tempdir inputs rest with
        | Except.error e => .error e
        | Except.ok (fifos, ips) =>
          .ok (p :: fifos, (PipeKey.path p, Adapter.fetch b) :: ips)

/-- The stream-output loop of `_setup_pipes`: each created output FIFO is
immediately opened host-side with `os.open(pipe, os.O_RDONLY |
os.O_NONBLOCK)` and registered in `opipes` under the returned descriptor
with a stream-push adapter.  Fresh descriptors are modelled by a
counter. -/
def pipeOutputs (tempdir : String) (outputs : List (String × Binding)) :
    Nat → List (String × IOSpec) →
    Except ExecErr (List String × List OpenCall × List (PipeKey × Adapter) × Nat)
  | fd, [] => .ok ([], [], [], fd)
  | fd, (id, spec) :: rest =>
    match makePipe tempdir id spec outputs with
    | Except.error e => .error e
    | Except.ok Option.none => pipeOutputs tempdir outputs fd rest
    | Except.ok (Option.some p) =>
      match outputs.lookup id with
      | Option.none => .error (.keyError id)
      | Option.some b =>
        match pipeOutputs tempdir outputs (fd + 1) rest with
        | Except.error e => .error e
        | Except.ok (fifos, opens, ops, fd') =>
          .ok (p :: fifos, ⟨fd, p, true, true⟩ :: opens,
            (PipeKey.fd fd, Adapter.push b) :: ops, fd')

/-- Value of the Python loop variable `id` at the special `_stdin`
handling: leaked from the preceding `for` loops — the last key of
`task_outputs` if any, else the last key of `task_inputs`. -/
def leakedId (task_inputs task_outputs : List (String × IOSpec)) :
    Option String :=
  match (task_outputs.map Prod.fst).getLast? with
  | Option.some i => Option.some i
  | Option.none => (task_inputs.map Prod.fst).getLast?

/-- Result of `_setup_pipes`: the FIFO paths passed to `os.mkfifo` (in
creation order), the host-side `os.open` calls, and the two adapter
dictionaries. -/
structure PipesResult where
  fifos : List String
  opened : List OpenCall
  ipipes : List (PipeKey × Adapter)
  opipes : List (PipeKey × Adapter)
deriving DecidableEq, Repr

/-- Special `_stdin` handling of `_setup_pipes`: the extra `ipipes` entry
it contributes.  A streaming bound `_stdin` gets a stream-fetch adapter;
a non-streaming bound `_stdin` is served by a `MemoryFetchAdapter` — but
the code builds it from `inputs[id]` where `id` is the loop variable
leaked from the preceding `for` loops, not `'_stdin'`. -/
def stdinPipes (task_inputs task_outputs : List (String × IOSpec))
    (inputs : List (String × Binding)) :
    Except ExecErr (List (PipeKey × Adapter)) :=
  match task_inputs.lookup "_stdin", inputs.lookup "_stdin" with
  | Option.some spec, Option.some b =>
    if spec.stream then
      .ok [(PipeKey.path "_stdin", Adapter.fetch b)]
    else
      match leakedId task_inputs task_outputs with
      | Option.some lid =>
        match inputs.lookup lid with
        | Option.some lb =>
          match lb.data with
          | Option.some d =>
            .ok [(PipeKey.path "_stdin", Adapter.memoryFetch lb d)]
          | Option.none => .error (.keyError "data")
        | Option.none => .error (.keyError lid)
      | Option.none => .error (.keyError "id")
  | _, _ => .ok []

/-- Special `_stdout`/`_stderr` handling of `_setup_pipes`: the extra
`opipes` entries, in loop order — a stream-push adapter for streaming
specs, an accumulating adapter under the key `script_data` otherwise. -/
def stdPipes (task_outputs : List (String × IOSpec))
    (outputs : List (String × Binding)) : List (PipeKey × Adapter) :=
  ["_stdout", "_stderr"].filterMap fun sid =>
    match task_outputs.lookup sid, outputs.lookup sid with
    | Option.some spec, Option.some b =>
      Option.some (PipeKey.path sid,
        if spec.stream then Adapter.push b else Adapter.accumulate b "script_data")
    | _, _ => Option.none

/-- Function `_setup_pipes(task_inputs, inputs, task_outputs, outputs,
tempdir)`: create FIFOs for qualifying streaming filepath ports (inputs
registered unopened with fetch adapters, outputs opened non-blocking for
reading with push adapters), then apply the special `_stdin` /
`_stdout` / `_stderr` handling. -/
def setupPipes (task_inputs : List (String × IOSpec))
    (inputs : List (String × Binding))
    (task_outputs : List (String × IOSpec))
    (outputs : List (String × Binding))
    (tempdir : String) (fd0 : Nat) : Except ExecErr PipesResult :=
  match pipeInputs tempdir inputs task_inputs with
  | Except.error e => .error e
  | Except.ok (ififos, ips0) =>
    match pipeOutputs tempdir outputs fd0 task_outputs with
    | Except.error e => .error e
    | Except.ok (ofifos, opens, ops0, _) =>
      match stdinPipes task_inputs task_outputs inputs with
      | Except.error e => .error e
      | Except.ok extraI =>
        .ok ⟨ififos ++ ofifos, opens, ips0 ++ extraI,
          ops0 ++ stdPipes task_outputs outputs⟩

/-- Assignment `outputs[name]['script_data'] = path` on an association
list: the binding stored under `name` gets its `script_data` replaced. -/
def setScriptData : List (String × Binding) → String → String →
    List (String × Binding)
  | [], _, _ => []
  | (k, b) :: rest, name, v =>
    if k = name then (k, { b with script_data := PyVal.str v }) :: rest
    else (k, b) :: setScriptData rest name v

/-- Output-collection loop at the end of `run` (executor.py lines
297-308): for each declared non-streaming `filepath` output, resolve its
expected path (explicit `path` or the port name; a relative path is taken
relative to `DATA_VOLUME`), map the data-volume reference to the host
scratch directory with `path.replace(DATA_VOLUME, tempdir, 1)`, fail with
`Exception('Output filepath <path> does not exist.')` when nothing exists
there (`fs` is the host filesystem's existence predicate), and otherwise
record the host path as the output's `script_data`.

The loop body applies to outputs satisfying
`spec.get('target') == 'filepath' and not spec.get('stream')`
(`collectQual`), with the path computation of `codeResolvedPath`:
`path = spec.get('path', name)`;
relative paths are joined under `DATA_VOLUME`; then
`path.replace(DATA_VOLUME, tempdir, 1)`. -/
def collectQual (spec : IOSpec) : Prop :=
  spec.target = Option.some "filepath" ∧ spec.stream = false

instance (spec : IOSpec) : Decidable (collectQual spec) := by
  unfold collectQual
  infer_instance

def codeResolvedPath (tempdir name : String) (spec : IOSpec) : String :=
  pyReplaceFirst
    (if !pyStartsWith (spec.path.getD name) "/" then
      joinPath DATA_VOLUME (spec.path.getD name)
    else spec.path.getD name)
    DATA_VOLUME tempdir

/-- The loop of executor.py lines 297-308 over the declared outputs (see
`codeResolvedPath`). -/
def collectOutputs (outputs : List (String × Binding)) (tempdir : String)
    (fs : String → Bool) :
    List (String × IOSpec) → Except ExecErr (List (String × Binding))
  | [] => .ok outputs
  | (name, spec) :: rest =>
    if collectQual spec then
      if fs (codeResolvedPath tempdir name spec) then
        match outputs.lookup name with
        | Option.some _ =>
          collectOutputs (setScriptData outputs name (codeResolvedPath tempdir name spec))
            tempdir fs rest
        | Option.none => .error (.keyError name)
      else
        .error (.exc ("Output filepath " ++ codeResolvedPath tempdir name spec ++
          " does not exist."))
    else
      collectOutputs outputs tempdir fs rest

/-- Resolved host path of a non-streaming filepath output as the
specification describes it: explicit `path` field or the port name, a
relative path taken relative to the mount root, and the mount-root prefix
translated to the host scratch directory. -/
def specResolvedHostPath (tempdir name : String) (spec : IOSpec) : String :=
  let p0 := spec.path.getD name
  let p1 := if pyStartsWith p0 "/" then p0 else joinPath DATA_VOLUME p0
  if pyStartsWith p1 DATA_VOLUME then
    tempdir ++ String.mk (p1.data.drop DATA_VOLUME.data.length)
  else p1

/-! ## Theorems: gaia task model -/

/-- C1: the claim says a successful `set_input` stores the bound value into
`_input_data` so that `get_input` returns it.  The code computes the value
(lines 105-113 of task.py) but never assigns it to `self._input_data` —
contradicting the method's own docstring ("Bind (and cache) data to input
ports") and its doctest — so a successful bind sets `dirty` yet a
subsequent `get_input` still returns `None`. -/
theorem C1_set_input_never_caches :
    (GTask.setInput ⟨["a"], [], [], [], false⟩ [] [("a", PyVal.str "5")]).2
        = Option.none ∧
    ((GTask.setInput ⟨["a"], [], [], [], false⟩ [] [("a", PyVal.str "5")]).1).dirty
        = true ∧
    GTask.getInput
        (GTask.setInput ⟨["a"], [], [], [], false⟩ [] [("a", PyVal.str "5")]).1 "a"
        = Option.none := by
  refine ⟨rfl, rfl, rfl⟩

/-- C2: `get_output` on a declared output name invokes `run()` at most
once over two consecutive calls (the first call leaves the dirty flag
cleared), both calls return the identical cached value, and `get_output`
on an undeclared name errors with the invalid-port error (and leaves the
task unchanged). -/
theorem C2_get_output_memoizes (t : GTask) (name : String) :
    (name ∈ t.outputs →
      (t.getOutput name).2.2 + ((t.getOutput name).1.getOutput name).2.2 ≤ 1 ∧
      (t.getOutput name).2.1 = Except.ok (t.output_data.lookup name) ∧
      ((t.getOutput name).1.getOutput name).2.1 = (t.getOutput name).2.1 ∧
      ((t.getOutput name).1).dirty = false) ∧
    (name ∉ t.outputs →
      (t.getOutput name).2.1 = Except.error (GaiaErr.invalidPort name) ∧
      (t.getOutput name).1 = t) := by
  constructor
  · intro h
    cases hd : t.dirty <;>
      simp [GTask.getOutput, GTask.run, h, hd]
  · intro h
    simp [GTask.getOutput, h]

/-- Concrete instantiation of `C2_get_output_memoizes`: a dirty task with
declared output `"o"` and an undeclared name `"u"`. -/
theorem C2_get_output_memoizes_witness :
    ("o" ∈ (⟨[], ["o"], [], [("o", PyVal.str "v")], true⟩ : GTask).outputs ∧
      ((⟨[], ["o"], [], [("o", PyVal.str "v")], true⟩ : GTask).getOutput "o").2.2 +
        (((⟨[], ["o"], [], [("o", PyVal.str "v")], true⟩ : GTask).getOutput "o").1.getOutput "o").2.2 ≤ 1 ∧
      ((⟨[], ["o"], [], [("o", PyVal.str "v")], true⟩ : GTask).getOutput "o").2.1 =
        Except.ok ((⟨[], ["o"], [], [("o", PyVal.str "v")], true⟩ : GTask).output_data.lookup "o") ∧
      (((⟨[], ["o"], [], [("o", PyVal.str "v")], true⟩ : GTask).getOutput "o").1.getOutput "o").2.1 =
        ((⟨[], ["o"], [], [("o", PyVal.str "v")], true⟩ : GTask).getOutput "o").2.1 ∧
      (((⟨[], ["o"], [], [("o", PyVal.str "v")], true⟩ : GTask).getOutput "o").1).dirty = false) ∧
    ("u" ∉ (⟨[], ["o"], [], [("o", PyVal.str "v")], true⟩ : GTask).outputs ∧
      ((⟨[], ["o"], [], [("o", PyVal.str "v")], true⟩ : GTask).getOutput "u").2.1 =
        Except.error (GaiaErr.invalidPort "u") ∧
      ((⟨[], ["o"], [], [("o", PyVal.str "v")], true⟩ : GTask).getOutput "u").1 =
        (⟨[], ["o"], [], [("o", PyVal.str "v")], true⟩ : GTask)) :=
  ⟨⟨by decide,
    (C2_get_output_memoizes ⟨[], ["o"], [], [("o", PyVal.str "v")], true⟩ "o").1 (by decide)⟩,
   ⟨by decide,
    (C2_get_output_memoizes ⟨[], ["o"], [], [("o", PyVal.str "v")], true⟩ "u").2 (by decide)⟩⟩

/-- C3 counterexample: the claim says `set_input` with an undeclared name
leaves the dirty flag exactly as it was, "including when other, valid
names are passed in the same call".  On a clean task (`dirty = false`)
with declared input `"a"`, calling `set_input(a=..., bogus=...)` raises
the invalid-port error for `"bogus"` but has already set the dirty flag
while processing the valid name `"a"`. -/
theorem C3_counterexample :
    (GTask.setInput ⟨["a"], [], [], [], false⟩ []
        [("a", PyVal.str "v"), ("bogus", PyVal.str "w")]).2
      = Option.some (GaiaErr.invalidPort "bogus") ∧
    ((GTask.setInput ⟨["a"], [], [], [], false⟩ []
        [("a", PyVal.str "v"), ("bogus", PyVal.str "w")]).1).dirty = true ∧
    (⟨["a"], [], [], [], false⟩ : GTask).dirty = false := by
  refine ⟨rfl, rfl, rfl⟩

/-- C3 amended: `set_input` with an undeclared port name raises the
invalid-port error, and `_input_data` is never modified; the task is left
entirely unchanged when the undeclared name is the first entry processed,
but valid names processed before the offending one have already set the
dirty flag. -/
theorem C3_amended_invalid_name (t : GTask) :
    (∀ (name : String) (v : PyVal) (rest : List (String × PyVal)),
      name ∉ t.inputs →
      t.setInputGo ((name, v) :: rest) = (t, Option.some (GaiaErr.invalidPort name))) ∧
    (∀ kws : List (String × PyVal), ((t.setInputGo kws).1).input_data = t.input_data) ∧
    (∀ kws : List (String × PyVal),
      (∃ p ∈ kws, p.1 ∉ t.inputs) → ((t.setInputGo kws).2).isSome = true) := by
  refine ⟨fun name v rest h => by simp [GTask.setInputGo, h], ?_, ?_⟩
  · intro kws
    induction kws generalizing t with
    | nil => rfl
    | cons p rest ih =>
      by_cases h : p.1 ∈ t.inputs
      · simpa [GTask.setInputGo, h] using ih { t with dirty := true }
      · simp [GTask.setInputGo, h]
  · intro kws
    induction kws generalizing t with
    | nil => rintro ⟨p, hp, _⟩; cases hp
    | cons q rest ih =>
      rintro ⟨p, hp, hnot⟩
      by_cases h : q.1 ∈ t.inputs
      · rcases List.mem_cons.mp hp with rfl | hmem
        · exact absurd h hnot
        · simpa [GTask.setInputGo, h] using
            ih (t := { t with dirty := true }) ⟨p, hmem, hnot⟩
      · simp [GTask.setInputGo, h]

/-- Concrete instantiation of `C3_amended_invalid_name`: undeclared name
first (no side effects), cache never touched, error raised whenever an
undeclared name is present. -/
theorem C3_amended_invalid_name_witness :
    ("bogus" ∉ (⟨["a"], [], [], [], false⟩ : GTask).inputs ∧
      (⟨["a"], [], [], [], false⟩ : GTask).setInputGo
          [("bogus", PyVal.str "w"), ("a", PyVal.str "v")]
        = (⟨["a"], [], [], [], false⟩, Option.some (GaiaErr.invalidPort "bogus"))) ∧
    (((⟨["a"], [], [], [], false⟩ : GTask).setInputGo
        [("a", PyVal.str "v"), ("bogus", PyVal.str "w")]).1.input_data
      = (⟨["a"], [], [], [], false⟩ : GTask).input_data) ∧
    ((∃ p ∈ [("a", PyVal.str "v"), ("bogus", PyVal.str "w")],
        p.1 ∉ (⟨["a"], [], [], [], false⟩ : GTask).inputs) ∧
      (((⟨["a"], [], [], [], false⟩ : GTask).setInputGo
          [("a", PyVal.str "v"), ("bogus", PyVal.str "w")]).2).isSome = true) :=
  ⟨⟨by decide,
    (C3_amended_invalid_name ⟨["a"], [], [], [], false⟩).1 "bogus" (PyVal.str "w")
      [("a", PyVal.str "v")] (by decide)⟩,
   (C3_amended_invalid_name ⟨["a"], [], [], [], false⟩).2.1
     [("a", PyVal.str "v"), ("bogus", PyVal.str "w")],
   ⟨⟨("bogus", PyVal.str "w"), by decide⟩,
    (C3_amended_invalid_name ⟨["a"], [], [], [], false⟩).2.2
      [("a", PyVal.str "v"), ("bogus", PyVal.str "w")]
      ⟨("bogus", PyVal.str "w"), by decide⟩⟩⟩

/-- A dirty-state's entry being true forces the index in range. -/
theorem getD_true_lt {st : List Bool} {t : Nat}
    (h : st.getD t false = true) : t < st.length := by
  by_contra hge
  rw [List.getD_eq_default st false (Nat.le_of_not_lt hge)] at h
  exact Bool.false_ne_true h

/-- Setting an already-true dirty entry to true changes nothing. -/
theorem set_true_of_getD {st : List Bool} {t : Nat}
    (h : st.getD t false = true) : st.set t true = st := by
  induction st generalizing t with
  | nil => rfl
  | cons b bs ih =>
    cases t with
    | zero => simp_all [List.getD]
    | succ n =>
      simp only [List.set]
      rw [ih (by simpa [List.getD] using h)]

/-- Notifying a list of consumers that are all already dirty marks
nothing: the fold over `_reset_downstream` leaves the state untouched. -/
theorem foldl_reset_noop (cons : List (List Nat)) (fuel : Nat)
    (st : List Bool) (l : List Nat)
    (h : ∀ c ∈ l, st.getD c false = true) :
    l.foldl
      (fun s c =>
        if GTask.resetFires (s.getD c false) true then
          setDirtyTrue cons fuel (s.set c true) c
        else s)
      st = st := by
  induction l with
  | nil => rfl
  | cons c cs ih =>
    have hc := h c (List.mem_cons_self c cs)
    simp only [List.foldl_cons, hc, GTask.resetFires, Bool.not_true,
      Bool.and_false, Bool.false_eq_true, if_false]
    exact ih fun d hd => h d (List.mem_cons_of_mem c hd)

/-- C9: the downstream-notification handler `_reset_downstream` marks a
consuming task dirty exactly when the upstream transition value is true
and the consumer is not already dirty; consequently, on a
downstream-closed dirty state, setting an already-dirty task's flag to
true again leaves the whole graph state unchanged — redundant propagation
is suppressed regardless of graph shape. -/
theorem C9_no_redundant_propagation :
    (∀ sd isd : Bool,
      GTask.resetFires sd isd = true ↔ isd = true ∧ sd = false) ∧
    (∀ sd isd : Bool,
      GTask.resetDownstream sd isd ≠ sd ↔ isd = true ∧ sd = false) ∧
    (∀ (cons : List (List Nat)) (st : List Bool) (t fuel : Nat),
      dirtyClosed cons st → st.getD t false = true →
      setDirtyTrue cons fuel st t = st) := by
  refine ⟨?_, ?_, ?_⟩
  · decide
  · decide
  · intro cons st t fuel hclosed ht
    cases fuel with
    | zero => rfl
    | succ n =>
      simp only [setDirtyTrue, set_true_of_getD ht]
      exact foldl_reset_noop cons n st (cons.getD t [])
        (hclosed t (getD_true_lt ht) ht)

/-- Concrete instantiation of `C9_no_redundant_propagation`: a two-task
chain `0 → 1` with both tasks dirty; re-setting task 0's flag to true
changes nothing. -/
theorem C9_no_redundant_propagation_witness :
    dirtyClosed [[1], []] [true, true] ∧
    List.getD [true, true] 0 false = true ∧
    setDirtyTrue [[1], []] 5 [true, true] 0 = [true, true] :=
  ⟨by decide, by decide,
    C9_no_redundant_propagation.2.2 [[1], []] [true, true] 0 5
      (by decide) (by decide)⟩

/-! ## Theorems: argument templating -/

/-- Equality of `Except` results is decidable when both sides are. -/
instance {ε α : Type} [DecidableEq ε] [DecidableEq α] :
    DecidableEq (Except ε α) := fun x y =>
  match x, y with
  | .ok a, .ok b =>
    if h : a = b then isTrue (by rw [h])
    else isFalse (by intro hh; cases hh; exact h rfl)
  | .error a, .error b =>
    if h : a = b then isTrue (by rw [h])
    else isFalse (by intro hh; cases hh; exact h rfl)
  | .ok _, .error _ => isFalse (by intro hh; cases hh)
  | .error _, .ok _ => isFalse (by intro hh; cases hh)

/-- Bind on a successful `Except` applies the continuation. -/
theorem exceptOkBind {ε α β : Type} (a : α) (f : α → Except ε β) :
    (Except.ok (ε := ε) a >>= f) = f a := rfl

/-- Bind on a failed `Except` propagates the error. -/
theorem exceptErrBind {ε α β : Type} (e : ε) (f : α → Except ε β) :
    (Except.error (α := α) e >>= f) = Except.error e := rfl

/-- C5: with `foo` a filepath input whose bound path lies in the scratch
directory and `bar` truthy with `arg="--bar"`, the template list
`["-f", "$input{foo}", "--dir=$input{_tempdir}", "$flag{bar}"]` expands
to `["-f", DATA_VOLUME ++ "/file.txt", "--dir=" ++ DATA_VOLUME, "--bar"]`;
with `bar` falsy the flag token becomes the empty string and the argument
is dropped, leaving one fewer element. -/
theorem C5_template_expansion_example :
    expandArgs
        [("foo", { script_data := PyVal.str "/tmp/scratch/file.txt" }),
         ("bar", { script_data := PyVal.bool true })]
        [("foo", { id := "foo", target := Option.some "filepath" }),
         ("bar", { id := "bar", arg := Option.some "--bar" })]
        "/tmp/scratch"
        ["-f", "$input\x7bfoo\x7d", "--dir=$input\x7b_tempdir\x7d", "$flag\x7bbar\x7d"]
      = Except.ok ["-f", DATA_VOLUME ++ "/file.txt", "--dir=" ++ DATA_VOLUME, "--bar"] ∧
    expandArgs
        [("foo", { script_data := PyVal.str "/tmp/scratch/file.txt" }),
         ("bar", { script_data := PyVal.bool false })]
        [("foo", { id := "foo", target := Option.some "filepath" }),
         ("bar", { id := "bar", arg := Option.some "--bar" })]
        "/tmp/scratch"
        ["-f", "$input\x7bfoo\x7d", "--dir=$input\x7b_tempdir\x7d", "$flag\x7bbar\x7d"]
      = Except.ok ["-f", DATA_VOLUME ++ "/file.txt", "--dir=" ++ DATA_VOLUME] := by
  refine ⟨by decide, by decide⟩

/-- C4 counterexample: a template referencing an input id absent from the
resolved input map (and different from `_tempdir`) does NOT raise any
error — `_expand_args` silently leaves the token unsubstituted in the
argument list. -/
theorem C4_counterexample_no_error :
    expandArgs [] [] "/tmp" ["$input\x7bnope\x7d"]
      = Except.ok ["$input\x7bnope\x7d"] := by
  decide

/-- Steps of the `$input{...}` fold that reference ids absent from the
input map (and different from `_tempdir`) leave the argument unchanged. -/
theorem foldl_input_tokens_unknown (inputs : List (String × Binding))
    (taskInputs : List (String × IOSpec)) (tmpDir : String)
    (ids : List String) (a : String)
    (h : ∀ id ∈ ids, inputs.lookup id = Option.none ∧ id ≠ "_tempdir") :
    ids.foldlM
      (fun a id =>
        if (inputs.lookup id).isSome then
          (transformPath inputs taskInputs id tmpDir).map fun tv =>
            pyReplace a ("$input\x7b" ++ id ++ "\x7d") tv.toStr
        else if id = "_tempdir" then
          .ok (pyReplace a "$input\x7b_tempdir\x7d" DATA_VOLUME)
        else
          .ok a)
      a = Except.ok a := by
  induction ids generalizing a with
  | nil => rfl
  | cons id ids ih =>
    have h1 := h id (List.mem_cons_self id ids)
    simp only [List.foldlM_cons, h1.1, Option.isSome_none, Bool.false_eq_true,
      if_false, h1.2, exceptOkBind]
    exact ih a fun i hi => h i (List.mem_cons_of_mem id hi)

/-- C4 amended: an `$input{id}` referencing an id absent from the resolved
input map (with `id ≠ _tempdir`) is not a construction error: no
`UnresolvedTemplateError` exists; the token is left verbatim in the
expanded argument and expansion succeeds. -/
theorem C4_amended_unknown_id_left_verbatim
    (inputs : List (String × Binding)) (taskInputs : List (String × IOSpec))
    (tmpDir arg : String)
    (hids : ∀ id ∈ findTokens "$input\x7b" arg,
      inputs.lookup id = Option.none ∧ id ≠ "_tempdir")
    (hflags : findTokens "$flag\x7b" arg = [])
    (hne : arg ≠ "") :
    expandArgs inputs taskInputs tmpDir [arg] = Except.ok [arg] := by
  have h1 : expandInputTokens inputs taskInputs tmpDir arg = Except.ok arg := by
    unfold expandInputTokens
    exact foldl_input_tokens_unknown inputs taskInputs tmpDir _ arg hids
  have h2 : expandFlagTokens inputs taskInputs arg = Except.ok arg := by
    unfold expandFlagTokens
    rw [hflags]
    rfl
  simp [expandArgs, h1, h2, exceptOkBind, hne]

/-- Concrete instantiation of `C4_amended_unknown_id_left_verbatim` at the
argument `"$input{nope}"` with an empty input map. -/
theorem C4_amended_unknown_id_left_verbatim_witness :
    ((∀ id ∈ findTokens "$input\x7b" "$input\x7bnope\x7d",
        (List.lookup id ([] : List (String × Binding))) = Option.none ∧
          id ≠ "_tempdir") ∧
      findTokens "$flag\x7b" "$input\x7bnope\x7d" = [] ∧
      "$input\x7bnope\x7d" ≠ "") ∧
    expandArgs [] [] "/tmp" ["$input\x7bnope\x7d"]
      = Except.ok ["$input\x7bnope\x7d"] :=
  ⟨⟨by decide, by decide, by decide⟩,
    C4_amended_unknown_id_left_verbatim [] [] "/tmp" "$input\x7bnope\x7d"
      (by decide) (by decide) (by decide)⟩

/-- C10: a `$flag{id}` token whose input id is bound and truthy but whose
task-input spec has no `arg` field is replaced by the id string itself
(`taskInputs[inputId].get('arg', inputId)`), so the bare id ends up as a
container argument. -/
theorem C10_flag_defaults_to_id (v : PyVal) (hv : v.truthy = true) :
    expandArgs [("bar", { script_data := v })] [("bar", { id := "bar" })]
        "/tmp" ["$flag\x7bbar\x7d"]
      = Except.ok ["bar"] := by
  have h1 : expandInputTokens [("bar", { script_data := v })]
      [("bar", { id := "bar" })] "/tmp" "$flag\x7bbar\x7d"
      = Except.ok "$flag\x7bbar\x7d" := by
    unfold expandInputTokens
    rfl
  have h2 : expandFlagTokens [("bar", { script_data := v })]
      [("bar", { id := "bar" })] "$flag\x7bbar\x7d" = Except.ok "bar" := by
    unfold expandFlagTokens
    have hfind : findTokens "$flag\x7b" "$flag\x7bbar\x7d" = ["bar"] := rfl
    rw [hfind]
    simp only [List.foldlM_cons, List.foldlM_nil]
    have hlk : List.lookup "bar" [("bar", ({ script_data := v } : Binding))]
        = Option.some { script_data := v } := rfl
    rw [hlk]
    simp only [hv, if_true]
    rfl
  simp [expandArgs, h1, h2, exceptOkBind]

/-- Concrete instantiation of `C10_flag_defaults_to_id` at a truthy
boolean binding. -/
theorem C10_flag_defaults_to_id_witness :
    (PyVal.bool true).truthy = true ∧
    expandArgs [("bar", { script_data := PyVal.bool true })]
        [("bar", { id := "bar" })] "/tmp" ["$flag\x7bbar\x7d"]
      = Except.ok ["bar"] :=
  ⟨rfl, C10_flag_defaults_to_id (PyVal.bool true) rfl⟩

/-- C6: `validate_task_outputs` fails with `TaskSpecValidationError` if and
only if some declared output violates the output contract
(`specOutputViolation`): it is neither `_stdout` nor `_stderr` nor a
filepath-target port, or its (defaulted) filepath path is absolute but not
under the mount root.  The four concrete instances of the claim are
included. -/
theorem C6_validate_outputs_characterization :
    (∀ outs : List (String × IOSpec),
      (∃ msg, validateTaskOutputs outs
          = Except.error (ExecErr.taskSpecValidation msg)) ↔
        ∃ p ∈ outs, specOutputViolation p.1 p.2) ∧
    (∃ msg, validateTaskOutputs [("custom", { id := "custom" })]
        = Except.error (ExecErr.taskSpecValidation msg)) ∧
    validateTaskOutputs [("_stderr", { id := "_stderr" })] = Except.ok () ∧
    validateTaskOutputs
        [("out",
          { id := "out", target := Option.some "filepath", path := Option.some (DATA_VOLUME ++ "/ok.txt") })]
      = Except.ok () ∧
    (∃ msg, validateTaskOutputs
        [("out",
          { id := "out", target := Option.some "filepath", path := Option.some "/etc/passwd" })]
        = Except.error (ExecErr.taskSpecValidation msg)) := by
  refine ⟨?_, ⟨_, rfl⟩, rfl, rfl, ⟨_, rfl⟩⟩
  intro outs
  induction outs with
  | nil =>
    simp [validateTaskOutputs]
  | cons hd rest ih =>
    obtain ⟨name, spec⟩ := hd
    rw [validateTaskOutputs]
    by_cases ht : spec.target = Option.some "filepath"
    · rw [if_pos ht]
      by_cases hb : (pyStartsWith (spec.path.getD name) "/" &&
          !pyStartsWith (spec.path.getD name) (DATA_VOLUME ++ "/")) = true
      · rw [if_pos hb]
        have hv : specOutputViolation name spec := by
          rcases Bool.and_eq_true_iff.mp hb with ⟨h1, h2⟩
          exact Or.inr ⟨ht, h1, by simpa using h2⟩
        simp only [List.exists_mem_cons_iff]
        exact ⟨fun _ => Or.inl hv, fun _ => ⟨_, rfl⟩⟩
      · rw [if_neg hb]
        have hnv : ¬ specOutputViolation name spec := by
          rintro (⟨h1, _, _⟩ | ⟨_, h2, h3⟩)
          · exact h1 ht
          · exact hb (by simp [h2, h3])
        simp only [List.exists_mem_cons_iff, hnv, false_or]
        exact ih
    · rw [if_neg ht]
      by_cases hn : name = "_stdout" ∨ name = "_stderr"
      · rw [if_pos hn]
        have hnv : ¬ specOutputViolation name spec := by
          rintro (⟨_, h1, h2⟩ | ⟨h3, _, _⟩)
          · rcases hn with hn | hn
            · exact h1 hn
            · exact h2 hn
          · exact ht h3
        simp only [List.exists_mem_cons_iff, hnv, false_or]
        exact ih
      · rw [if_neg hn]
        push_neg at hn
        have hv : specOutputViolation name spec := Or.inl ⟨ht, hn.1, hn.2⟩
        simp only [List.exists_mem_cons_iff]
        exact ⟨fun _ => Or.inl hv, fun _ => ⟨_, rfl⟩⟩

/-! ## Theorems: output collection -/

/-- Shape of an output path accepted by `validate_task_outputs`: relative,
or absolute under the mount root. -/
def outputShapeOK (name : String) (spec : IOSpec) : Prop :=
  pyStartsWith (spec.path.getD name) "/" = false ∨
    pyStartsWith (spec.path.getD name) (DATA_VOLUME ++ "/") = true

instance (name : String) (spec : IOSpec) : Decidable (outputShapeOK name spec) := by
  unfold outputShapeOK
  infer_instance

/-- Replacing the first occurrence of a pattern that is a prefix of the
string substitutes exactly that prefix. -/
theorem pyReplaceFirst_head_match (s pat rep : String) (hne : pat.data ≠ [])
    (hp : pat.data.isPrefixOf s.data = true) :
    pyReplaceFirst s pat rep = rep ++ String.mk (s.data.drop pat.data.length) := by
  unfold pyReplaceFirst
  rw [if_neg (by simp [List.isEmpty_iff, hne])]
  cases hs : s.data with
  | nil =>
    rw [hs] at hp
    cases hd : pat.data with
    | nil => exact absurd hd hne
    | cons a as => rw [hd] at hp; simp at hp
  | cons c cs =>
    rw [hs] at hp
    unfold replaceFirstGo
    rw [if_pos hp]
    rfl

/-- For a path of validated shape, the code's first-occurrence replacement
coincides with the specification's prefix substitution. -/
theorem codeResolvedPath_eq_spec (tempdir name : String) (spec : IOSpec)
    (h : outputShapeOK name spec) :
    codeResolvedPath tempdir name spec = specResolvedHostPath tempdir name spec := by
  rcases h with h | h
  · have hj : joinPath DATA_VOLUME (spec.path.getD name)
        = DATA_VOLUME ++ "/" ++ spec.path.getD name := by
      unfold joinPath
      rw [if_neg (by simp [h]), if_neg (by decide), if_neg (by decide)]
    have hpre : DATA_VOLUME.data.isPrefixOf
        (DATA_VOLUME ++ "/" ++ spec.path.getD name).data = true := by
      rw [List.isPrefixOf_iff_prefix]
      simp only [String.data_append, List.append_assoc]
      exact List.prefix_append _ _
    simp only [codeResolvedPath, specResolvedHostPath, h, Bool.not_false,
      if_true, Bool.false_eq_true, if_false, hj]
    rw [pyReplaceFirst_head_match _ _ _ (by decide) hpre]
    rw [if_pos (show pyStartsWith _ DATA_VOLUME = true from hpre)]
  · have habs : pyStartsWith (spec.path.getD name) "/" = true := by
      have h1 : ("/" : String).data.isPrefixOf (DATA_VOLUME ++ "/").data = true := by
        decide
      have h' := h
      simp only [pyStartsWith, List.isPrefixOf_iff_prefix] at h1 h' ⊢
      exact h1.trans h'
    have hpre : DATA_VOLUME.data.isPrefixOf (spec.path.getD name).data = true := by
      have h1 : DATA_VOLUME.data.isPrefixOf (DATA_VOLUME ++ "/").data = true := by
        decide
      have h' := h
      simp only [pyStartsWith, List.isPrefixOf_iff_prefix] at h1 h' ⊢
      exact h1.trans h'
    simp only [codeResolvedPath, specResolvedHostPath, habs, Bool.not_true,
      Bool.false_eq_true, if_false, if_true]
    rw [pyReplaceFirst_head_match _ _ _ (by decide) hpre]
    rw [if_pos (show pyStartsWith _ DATA_VOLUME = true from hpre)]

/-- Reading back the assigned key after `outputs[name]['script_data'] = v`. -/
theorem lookup_setScriptData_self (outs : List (String × Binding))
    (name v : String) :
    (setScriptData outs name v).lookup name
      = (outs.lookup name).map fun b => { b with script_data := PyVal.str v } := by
  induction outs with
  | nil => rfl
  | cons p rest ih =>
    obtain ⟨k, b⟩ := p
    by_cases h : k = name
    · subst h
      simp [setScriptData, List.lookup]
    · have h2 : (name == k) = false := beq_eq_false_iff_ne.mpr (Ne.symm h)
      simp [setScriptData, List.lookup, h, h2, ih]

/-- Other keys are untouched by `setScriptData`. -/
theorem lookup_setScriptData_ne (outs : List (String × Binding))
    (name n v : String) (h : n ≠ name) :
    (setScriptData outs name v).lookup n = outs.lookup n := by
  induction outs with
  | nil => rfl
  | cons p rest ih =>
    obtain ⟨k, b⟩ := p
    by_cases hk : k = name
    · subst hk
      have h2 : (n == k) = false := beq_eq_false_iff_ne.mpr h
      simp [setScriptData, List.lookup, h2]
    · simp [setScriptData, List.lookup, hk, ih]

/-- Output collection never touches bindings whose name is not among the
processed output names. -/
theorem collect_preserves_other (tempdir : String) (fs : String → Bool)
    (tos : List (String × IOSpec)) (outputs out' : List (String × Binding))
    (h : collectOutputs outputs tempdir fs tos = Except.ok out')
    (n : String) (hn : n ∉ tos.map Prod.fst) :
    out'.lookup n = outputs.lookup n := by
  induction tos generalizing outputs with
  | nil =>
    cases h
    rfl
  | cons p rest ih =>
    obtain ⟨name, spec⟩ := p
    have hn' : n ∉ rest.map Prod.fst := fun hm => hn (List.mem_cons_of_mem _ hm)
    have hne : n ≠ name := fun he => hn (by simp [he])
    rw [collectOutputs] at h
    by_cases hq : collectQual spec
    · rw [if_pos hq] at h
      by_cases hfs : fs (codeResolvedPath tempdir name spec) = true
      · rw [if_pos hfs] at h
        cases hlk : List.lookup name outputs with
        | none => rw [hlk] at h; exact Except.noConfusion h
        | some b =>
          rw [hlk] at h
          rw [ih _ h hn', lookup_setScriptData_ne _ _ _ _ hne]
      · rw [if_neg hfs] at h
        exact Except.noConfusion h
    · rw [if_neg hq] at h
      exact ih _ h hn'

/-- When every qualifying output's resolved file exists, collection
succeeds and records each resolved host path as that output's payload. -/
theorem collect_ok_all_present (tempdir : String) (fs : String → Bool) :
    ∀ (tos : List (String × IOSpec)) (outputs : List (String × Binding)),
    (∀ p ∈ tos, collectQual p.2 → outputShapeOK p.1 p.2) →
    (tos.map Prod.fst).Nodup →
    (∀ p ∈ tos, collectQual p.2 → (outputs.lookup p.1).isSome = true) →
    (∀ p ∈ tos, collectQual p.2 →
      fs (specResolvedHostPath tempdir p.1 p.2) = true) →
    ∃ out', collectOutputs outputs tempdir fs tos = Except.ok out' ∧
      ∀ p ∈ tos, collectQual p.2 →
        out'.lookup p.1 = (outputs.lookup p.1).map fun b =>
          { b with script_data :=
              PyVal.str (specResolvedHostPath tempdir p.1 p.2) } := by
  intro tos
  induction tos with
  | nil =>
    intro outputs _ _ _ _
    exact ⟨outputs, rfl, by simp⟩
  | cons hd rest ih =>
    obtain ⟨name, spec⟩ := hd
    intro outputs hshape hnodup hbound hex
    rw [List.map_cons, List.nodup_cons] at hnodup
    have hshape' : ∀ p ∈ rest, collectQual p.2 → outputShapeOK p.1 p.2 :=
      fun p hp => hshape p (List.mem_cons_of_mem _ hp)
    have hex' : ∀ p ∈ rest, collectQual p.2 →
        fs (specResolvedHostPath tempdir p.1 p.2) = true :=
      fun p hp => hex p (List.mem_cons_of_mem _ hp)
    have hmem : (name, spec) ∈ (name, spec) :: rest := List.mem_cons_self _ _
    by_cases hq : collectQual spec
    · have hbr := codeResolvedPath_eq_spec tempdir name spec (hshape _ hmem hq)
      have hfs : fs (codeResolvedPath tempdir name spec) = true := by
        rw [hbr]
        exact hex _ hmem hq
      obtain ⟨b, hb⟩ := Option.isSome_iff_exists.mp (hbound _ hmem hq)
      have hbound' : ∀ p ∈ rest, collectQual p.2 →
          (((setScriptData outputs name
              (codeResolvedPath tempdir name spec)).lookup p.1)).isSome = true := by
        intro p hp hpq
        have hpn : p.1 ≠ name := fun he =>
          hnodup.1 (by rw [← he]; exact List.mem_map.mpr ⟨p, hp, rfl⟩)
        rw [lookup_setScriptData_ne _ _ _ _ hpn]
        exact hbound p (List.mem_cons_of_mem _ hp) hpq
      obtain ⟨out', hout', hlk⟩ :=
        ih (setScriptData outputs name (codeResolvedPath tempdir name spec))
          hshape' hnodup.2 hbound' hex'
      refine ⟨out', ?_, ?_⟩
      · rw [collectOutputs, if_pos hq, if_pos hfs, hb]
        exact hout'
      · intro p hp hpq
        rcases List.mem_cons.mp hp with he | hp'
        · subst he
        
          have hpres := collect_preserves_other tempdir fs rest _ out' hout'
            name hnodup.1
          rw [hpres, lookup_setScriptData_self, hbr]
        · have hpn : p.1 ≠ name := fun he =>
            hnodup.1 (by rw [← he]; exact List.mem_map.mpr ⟨p, hp', rfl⟩)
          rw [hlk p hp' hpq, lookup_setScriptData_ne _ _ _ _ hpn]
    · obtain ⟨out', hout', hlk⟩ := ih outputs hshape' hnodup.2
        (fun p hp => hbound p (List.mem_cons_of_mem _ hp)) hex'
      refine ⟨out', ?_, ?_⟩
      · rw [collectOutputs, if_neg hq]
        exact hout'
      · intro p hp hpq
        rcases List.mem_cons.mp hp with he | hp'
        · subst he
          exact absurd hpq hq
        · exact hlk p hp' hpq

/-- When some qualifying output's resolved file is missing, collection
fails with the missing-output exception naming a resolved host path that
is indeed absent. -/
theorem collect_error_missing (tempdir : String) (fs : String → Bool) :
    ∀ (tos : List (String × IOSpec)) (outputs : List (String × Binding)),
    (∀ p ∈ tos, collectQual p.2 → outputShapeOK p.1 p.2) →
    (tos.map Prod.fst).Nodup →
    (∀ p ∈ tos, collectQual p.2 → (outputs.lookup p.1).isSome = true) →
    (∃ p ∈ tos, collectQual p.2 ∧
      fs (specResolvedHostPath tempdir p.1 p.2) = false) →
    ∃ q ∈ tos, collectQual q.2 ∧
      fs (specResolvedHostPath tempdir q.1 q.2) = false ∧
      collectOutputs outputs tempdir fs tos = Except.error (ExecErr.exc
        ("Output filepath " ++ specResolvedHostPath tempdir q.1 q.2 ++
          " does not exist.")) := by
  intro tos
  induction tos with
  | nil =>
    rintro outputs _ _ _ ⟨p, hp, _⟩
    cases hp
  | cons hd rest ih =>
    obtain ⟨name, spec⟩ := hd
    rintro outputs hshape hnodup hbound ⟨p, hp, hpq, hpf⟩
    rw [List.map_cons, List.nodup_cons] at hnodup
    have hshape' : ∀ p ∈ rest, collectQual p.2 → outputShapeOK p.1 p.2 :=
      fun p hp => hshape p (List.mem_cons_of_mem _ hp)
    have hmem : (name, spec) ∈ (name, spec) :: rest := List.mem_cons_self _ _
    by_cases hq : collectQual spec
    · have hbr := codeResolvedPath_eq_spec tempdir name spec (hshape _ hmem hq)
      by_cases hfs : fs (specResolvedHostPath tempdir name spec) = true
      · -- head file present: the missing one is further down
        have hp' : p ∈ rest := by
          rcases List.mem_cons.mp hp with he | hp'
          · subst he
            rw [hpf] at hfs
            exact absurd hfs (by simp)
          · exact hp'
        obtain ⟨b, hb⟩ := Option.isSome_iff_exists.mp (hbound _ hmem hq)
        have hbound' : ∀ r ∈ rest, collectQual r.2 →
            (((setScriptData outputs name
                (codeResolvedPath tempdir name spec)).lookup r.1)).isSome = true := by
          intro r hr hrq
          have hrn : r.1 ≠ name := fun he =>
            hnodup.1 (by rw [← he]; exact List.mem_map.mpr ⟨r, hr, rfl⟩)
          rw [lookup_setScriptData_ne _ _ _ _ hrn]
          exact hbound r (List.mem_cons_of_mem _ hr) hrq
        obtain ⟨q, hqm, hqq, hqf, herr⟩ :=
          ih (setScriptData outputs name (codeResolvedPath tempdir name spec))
            hshape' hnodup.2 hbound' ⟨p, hp', hpq, hpf⟩
        refine ⟨q, List.mem_cons_of_mem _ hqm, hqq, hqf, ?_⟩
        rw [collectOutputs, if_pos hq, if_pos (by rw [hbr]; exact hfs), hb]
        exact herr
      · -- head file missing: error raised right here
        refine ⟨(name, spec), hmem, hq, by simpa using hfs, ?_⟩
        rw [collectOutputs, if_pos hq, if_neg (by rw [hbr]; exact hfs), hbr]
    · have hp' : p ∈ rest := by
        rcases List.mem_cons.mp hp with he | hp'
        · subst he
          exact absurd hpq hq
        · exact hp'
      obtain ⟨q, hqm, hqq, hqf, herr⟩ := ih outputs hshape' hnodup.2
        (fun r hr => hbound r (List.mem_cons_of_mem _ hr)) ⟨p, hp', hpq, hpf⟩
      refine ⟨q, List.mem_cons_of_mem _ hqm, hqq, hqf, ?_⟩
      rw [collectOutputs, if_neg hq]
      exact herr

def tosC8 : List (String × IOSpec) :=
  [("out", { id := "out", target := Option.some "filepath" })]

def outsC8 : List (String × Binding) := [("out", {})]

def fsYes : String → Bool := fun p => p == "/tmp/x/out"

def fsNo : String → Bool := fun _ => false

/-- C8: after container exit, for each declared non-streaming
filepath-target output, the executor resolves the expected path (explicit
`path` field or the port id, a relative path taken under the mount root,
the mount-root prefix translated to the host scratch directory): when no
file exists at the resolved host path, collection fails with the
missing-output exception naming that resolved path; otherwise the resolved
host path is recorded as the output's data payload (`script_data`).  The
path-shape hypothesis is exactly the shape `validate_task_outputs`
admits (under it, the code's single `str.replace(..., 1)` is the prefix
substitution the claim describes). -/
theorem C8_collect_outputs_behaviour
    (tos : List (String × IOSpec)) (outputs : List (String × Binding))
    (tempdir : String) (fs : String → Bool)
    (hshape : ∀ p ∈ tos, collectQual p.2 → outputShapeOK p.1 p.2)
    (hnodup : (tos.map Prod.fst).Nodup)
    (hbound : ∀ p ∈ tos, collectQual p.2 → (outputs.lookup p.1).isSome = true) :
    ((∀ p ∈ tos, collectQual p.2 →
        fs (specResolvedHostPath tempdir p.1 p.2) = true) →
      ∃ out', collectOutputs outputs tempdir fs tos = Except.ok out' ∧
        ∀ p ∈ tos, collectQual p.2 →
          out'.lookup p.1 = (outputs.lookup p.1).map fun b =>
            { b with script_data :=
                PyVal.str (specResolvedHostPath tempdir p.1 p.2) }) ∧
    ((∃ p ∈ tos, collectQual p.2 ∧
        fs (specResolvedHostPath tempdir p.1 p.2) = false) →
      ∃ q ∈ tos, collectQual q.2 ∧
        fs (specResolvedHostPath tempdir q.1 q.2) = false ∧
        collectOutputs outputs tempdir fs tos = Except.error (ExecErr.exc
          ("Output filepath " ++ specResolvedHostPath tempdir q.1 q.2 ++
            " does not exist."))) :=
  ⟨fun hex => collect_ok_all_present tempdir fs tos outputs hshape hnodup hbound hex,
   fun hmiss => collect_error_missing tempdir fs tos outputs hshape hnodup hbound hmiss⟩

/-- Concrete instantiation of `C8_collect_outputs_behaviour`: one declared
filepath output `out` without an explicit path, scratch directory
`/tmp/x`; it resolves to `/tmp/x/out`, which is recorded when present
(`fsYes`) and reported missing by the raised exception when absent
(`fsNo`). -/
theorem C8_collect_outputs_behaviour_witness :
    ((∀ p ∈ tosC8, collectQual p.2 → outputShapeOK p.1 p.2) ∧
      (tosC8.map Prod.fst).Nodup ∧
      (∀ p ∈ tosC8, collectQual p.2 → (outsC8.lookup p.1).isSome = true) ∧
      (∀ p ∈ tosC8, collectQual p.2 →
        fsYes (specResolvedHostPath "/tmp/x" p.1 p.2) = true) ∧
      (∃ out', collectOutputs outsC8 "/tmp/x" fsYes tosC8 = Except.ok out' ∧
        ∀ p ∈ tosC8, collectQual p.2 →
          out'.lookup p.1 = (outsC8.lookup p.1).map fun b =>
            { b with script_data :=
                PyVal.str (specResolvedHostPath "/tmp/x" p.1 p.2) })) ∧
    ((∃ p ∈ tosC8, collectQual p.2 ∧
        fsNo (specResolvedHostPath "/tmp/x" p.1 p.2) = false) ∧
      ∃ q ∈ tosC8, collectQual q.2 ∧
        fsNo (specResolvedHostPath "/tmp/x" q.1 q.2) = false ∧
        collectOutputs outsC8 "/tmp/x" fsNo tosC8 = Except.error (ExecErr.exc
          ("Output filepath " ++ specResolvedHostPath "/tmp/x" q.1 q.2 ++
            " does not exist."))) :=
  ⟨⟨by decide, by decide, by decide, by decide,
    (C8_collect_outputs_behaviour tosC8 outsC8 "/tmp/x" fsYes
      (by decide) (by decide) (by decide)).1 (by decide)⟩,
   ⟨⟨("out", { id := "out", target := Option.some "filepath" }), by decide,
      by decide, rfl⟩,
    (C8_collect_outputs_behaviour tosC8 outsC8 "/tmp/x" fsNo
      (by decide) (by decide) (by decide)).2
      ⟨("out", { id := "out", target := Option.some "filepath" }), by decide,
        by decide, rfl⟩⟩⟩

/-! ## Theorems: pipe setup -/

/-- No FIFO comes out of `make_pipe` exactly for non-qualifying specs. -/
theorem makePipe_ok_none {tempdir id : String} {spec : IOSpec}
    {bindings : List (String × Binding)}
    (h : makePipe tempdir id spec bindings = .ok Option.none) :
    ¬ streamQual id spec bindings := by
  intro hq
  unfold makePipe at h
  rw [if_pos hq] at h
  by_cases habs : pyStartsWith (spec.path.getD id) "/" = true
  · rw [if_pos habs] at h
    exact Except.noConfusion h
  · rw [if_neg habs] at h
    simp at h

/-- A created FIFO means the spec qualifies, the configured path is
relative, and the FIFO lives at that path inside the scratch directory. -/
theorem makePipe_ok_some {tempdir id : String} {spec : IOSpec}
    {bindings : List (String × Binding)} {p : String}
    (h : makePipe tempdir id spec bindings = .ok (Option.some p)) :
    streamQual id spec bindings ∧
      pyStartsWith (spec.path.getD id) "/" = false ∧
      p = joinPath tempdir (spec.path.getD id) := by
  unfold makePipe at h
  by_cases hq : streamQual id spec bindings
  · rw [if_pos hq] at h
    by_cases habs : pyStartsWith (spec.path.getD id) "/" = true
    · rw [if_pos habs] at h
      exact Except.noConfusion h
    · rw [if_neg habs] at h
      simp only [Except.ok.injEq, Option.some.injEq] at h
      exact ⟨hq, by simpa using habs, h.symm⟩
  · rw [if_neg hq] at h
    simp at h

/-- A qualifying streaming port with an absolute path makes `make_pipe`
raise. -/
theorem makePipe_error_abs {tempdir id : String} {spec : IOSpec}
    {bindings : List (String × Binding)}
    (hq : streamQual id spec bindings)
    (habs : pyStartsWith (spec.path.getD id) "/" = true) :
    makePipe tempdir id spec bindings
      = .error (.exc "Streaming filepaths must be relative.") := by
  unfold makePipe
  rw [if_pos hq, if_pos habs]

/-- Scratch-directory FIFO paths of the qualifying (streaming,
filepath-target, bound) ports, in declaration order. -/
def streamFifoPaths (tempdir : String) (bindings : List (String × Binding))
    (ports : List (String × IOSpec)) : List String :=
  (ports.filter fun p => decide (streamQual p.1 p.2 bindings)).map
    fun p => joinPath tempdir (p.2.path.getD p.1)

/-- Successful input-pipe setup creates FIFOs exactly for the qualifying
input ports and registers each with a fetch adapter for its binding. -/
theorem pipeInputs_ok (tempdir : String) (inputs : List (String × Binding)) :
    ∀ (tis : List (String × IOSpec)) (r : List String × List (PipeKey × Adapter)),
    pipeInputs tempdir inputs tis = .ok r →
    r.1 = streamFifoPaths tempdir inputs tis ∧
    ∀ p ∈ tis, streamQual p.1 p.2 inputs →
      ∀ b, inputs.lookup p.1 = Option.some b →
        (PipeKey.path (joinPath tempdir (p.2.path.getD p.1)),
          Adapter.fetch b) ∈ r.2 := by
  intro tis
  induction tis with
  | nil =>
    intro r h
    cases h
    exact ⟨rfl, by simp⟩
  | cons hd rest ih =>
    obtain ⟨id, spec⟩ := hd
    intro r h
    rw [pipeInputs] at h
    cases hmp : makePipe tempdir id spec inputs with
    | error e =>
      rw [hmp] at h
      exact Except.noConfusion h
    | ok o =>
      rw [hmp] at h
      cases o with
      | none =>
        have hnq := makePipe_ok_none hmp
        obtain ⟨h1, h2⟩ := ih r h
        refine ⟨?_, ?_⟩
        · rw [h1]
          unfold streamFifoPaths
          rw [List.filter_cons_of_neg (by simpa using hnq)]
        · intro p hp hq b hb
          rcases List.mem_cons.mp hp with he | hp'
          · subst he
            exact absurd hq hnq
          · exact h2 p hp' hq b hb
      | some pth =>
        obtain ⟨hq, habs, hpe⟩ := makePipe_ok_some hmp
        cases hlk : inputs.lookup id with
        | none =>
          rw [hlk] at h
          exact Except.noConfusion h
        | some b =>
          rw [hlk] at h
          cases hrec : pipeInputs tempdir inputs rest with
          | error e =>
            rw [hrec] at h
            exact Except.noConfusion h
          | ok rr =>
            obtain ⟨fifos, ips⟩ := rr
            rw [hrec] at h
            cases h
            obtain ⟨h1, h2⟩ := ih (fifos, ips) hrec
            dsimp only at h1 h2
            refine ⟨?_, ?_⟩
            · show pth :: fifos = _
              unfold streamFifoPaths
              rw [List.filter_cons_of_pos (by simpa using hq), List.map_cons]
              unfold streamFifoPaths at h1
              rw [hpe, h1]
            · intro p hp hsq b' hb'
              rcases List.mem_cons.mp hp with he | hp'
              · subst he
                rw [hlk] at hb'
                injection hb' with hbe
                subst hbe
                rw [hpe]
                exact List.mem_cons_self _ _
              · exact List.mem_cons_of_mem _ (h2 p hp' hsq b' hb')

/-- Successful output-pipe setup creates FIFOs exactly for the qualifying
output ports, opens exactly those FIFOs host-side — always read-only and
non-blocking — and registers each opened descriptor with a push adapter
for its binding. -/
theorem pipeOutputs_ok (tempdir : String) (outputs : List (String × Binding)) :
    ∀ (tos : List (String × IOSpec)) (fd : Nat)
      (r : List String × List OpenCall × List (PipeKey × Adapter) × Nat),
    pipeOutputs tempdir outputs fd tos = .ok r →
    r.1 = streamFifoPaths tempdir outputs tos ∧
    r.2.1.map OpenCall.path = streamFifoPaths tempdir outputs tos ∧
    (∀ oc ∈ r.2.1, oc.rdonly = true ∧ oc.nonblock = true) ∧
    ∀ p ∈ tos, streamQual p.1 p.2 outputs →
      ∀ b, outputs.lookup p.1 = Option.some b →
        ∃ n, OpenCall.mk n (joinPath tempdir (p.2.path.getD p.1)) true true ∈ r.2.1 ∧
          (PipeKey.fd n, Adapter.push b) ∈ r.2.2.1 := by
  intro tos
  induction tos with
  | nil =>
    intro fd r h
    cases h
    exact ⟨rfl, rfl, by simp, by simp⟩
  | cons hd rest ih =>
    obtain ⟨id, spec⟩ := hd
    intro fd r h
    rw [pipeOutputs] at h
    cases hmp : makePipe tempdir id spec outputs with
    | error e =>
      rw [hmp] at h
      exact Except.noConfusion h
    | ok o =>
      rw [hmp] at h
      cases o with
      | none =>
        have hnq := makePipe_ok_none hmp
        obtain ⟨h1, h2, h3, h4⟩ := ih fd r h
        refine ⟨?_, ?_, h3, ?_⟩
        · rw [h1]
          unfold streamFifoPaths
          rw [List.filter_cons_of_neg (by simpa using hnq)]
        · rw [h2]
          unfold streamFifoPaths
          rw [List.filter_cons_of_neg (by simpa using hnq)]
        · intro p hp hq b hb
          rcases List.mem_cons.mp hp with he | hp'
          · subst he
            exact absurd hq hnq
          · exact h4 p hp' hq b hb
      | some pth =>
        obtain ⟨hq, habs, hpe⟩ := makePipe_ok_some hmp
        cases hlk : outputs.lookup id with
        | none =>
          rw [hlk] at h
          exact Except.noConfusion h
        | some b =>
          rw [hlk] at h
          cases hrec : pipeOutputs tempdir outputs (fd + 1) rest with
          | error e =>
            rw [hrec] at h
            exact Except.noConfusion h
          | ok rr =>
            obtain ⟨fifos, opens, ops, fd'⟩ := rr
            rw [hrec] at h
            cases h
            obtain ⟨h1, h2, h3, h4⟩ := ih (fd + 1) (fifos, opens, ops, fd') hrec
            dsimp only at h1 h2 h3 h4
            refine ⟨?_, ?_, ?_, ?_⟩
            · show pth :: fifos = _
              unfold streamFifoPaths
              rw [List.filter_cons_of_pos (by simpa using hq), List.map_cons]
              unfold streamFifoPaths at h1
              rw [hpe, h1]
            · show OpenCall.path ⟨fd, pth, true, true⟩ :: opens.map OpenCall.path = _
              unfold streamFifoPaths
              rw [List.filter_cons_of_pos (by simpa using hq), List.map_cons]
              unfold streamFifoPaths at h2
              rw [h2]
              show pth :: _ = _
              rw [hpe]
            · intro oc hoc
              rcases List.mem_cons.mp hoc with he | hoc'
              · subst he
                exact ⟨rfl, rfl⟩
              · exact h3 oc hoc'
            · intro p hp hsq b' hb'
              rcases List.mem_cons.mp hp with he | hp'
              · subst he
                rw [hlk] at hb'
                injection hb' with hbe
                subst hbe
                refine ⟨fd, ?_, List.mem_cons_self _ _⟩
                rw [hpe] at *
                exact List.mem_cons_self _ _
              · obtain ⟨n, ho, hpm⟩ := h4 p hp' hsq b' hb'
                exact ⟨n, List.mem_cons_of_mem _ ho, List.mem_cons_of_mem _ hpm⟩

/-- An input streaming port with an absolute path dooms input-pipe setup. -/
theorem pipeInputs_error_abs (tempdir : String)
    (inputs : List (String × Binding)) :
    ∀ tis : List (String × IOSpec),
    (∃ p ∈ tis, streamQual p.1 p.2 inputs ∧
      pyStartsWith (p.2.path.getD p.1) "/" = true) →
    ∀ r, pipeInputs tempdir inputs tis ≠ .ok r := by
  intro tis
  induction tis with
  | nil =>
    rintro ⟨p, hp, _⟩
    cases hp
  | cons hd rest ih =>
    obtain ⟨id, spec⟩ := hd
    rintro ⟨p, hp, hpq, hpa⟩ r h
    rw [pipeInputs] at h
    rcases List.mem_cons.mp hp with he | hp'
    · subst he
      rw [makePipe_error_abs hpq hpa] at h
      exact Except.noConfusion h
    · cases hmp : makePipe tempdir id spec inputs with
      | error e =>
        rw [hmp] at h
        exact Except.noConfusion h
      | ok o =>
        rw [hmp] at h
        cases o with
        | none => exact ih ⟨p, hp', hpq, hpa⟩ r h
        | some pth =>
          cases hlk : inputs.lookup id with
          | none =>
            rw [hlk] at h
            exact Except.noConfusion h
          | some b =>
            rw [hlk] at h
            cases hrec : pipeInputs tempdir inputs rest with
            | error e =>
              rw [hrec] at h
              exact Except.noConfusion h
            | ok rr => exact ih ⟨p, hp', hpq, hpa⟩ rr hrec

/-- An output streaming port with an absolute path dooms output-pipe
setup. -/
theorem pipeOutputs_error_abs (tempdir : String)
    (outputs : List (String × Binding)) :
    ∀ tos : List (String × IOSpec),
    (∃ p ∈ tos, streamQual p.1 p.2 outputs ∧
      pyStartsWith (p.2.path.getD p.1) "/" = true) →
    ∀ fd r, pipeOutputs tempdir outputs fd tos ≠ .ok r := by
  intro tos
  induction tos with
  | nil =>
    rintro ⟨p, hp, _⟩
    cases hp
  | cons hd rest ih =>
    obtain ⟨id, spec⟩ := hd
    rintro ⟨p, hp, hpq, hpa⟩ fd r h
    rw [pipeOutputs] at h
    rcases List.mem_cons.mp hp with he | hp'
    · subst he
      rw [makePipe_error_abs hpq hpa] at h
      exact Except.noConfusion h
    · cases hmp : makePipe tempdir id spec outputs with
      | error e =>
        rw [hmp] at h
        exact Except.noConfusion h
      | ok o =>
        rw [hmp] at h
        cases o with
        | none => exact ih ⟨p, hp', hpq, hpa⟩ fd r h
        | some pth =>
          cases hlk : outputs.lookup id with
          | none =>
            rw [hlk] at h
            exact Except.noConfusion h
          | some b =>
            rw [hlk] at h
            cases hrec : pipeOutputs tempdir outputs (fd + 1) rest with
            | error e =>
              rw [hrec] at h
              exact Except.noConfusion h
            | ok rr => exact ih ⟨p, hp', hpq, hpa⟩ (fd + 1) rr hrec

/-- A successful `_setup_pipes` decomposes into its three successful
stages, with the result fields assembled from them. -/
theorem setupPipes_ok_parts {ti : List (String × IOSpec)}
    {ins : List (String × Binding)} {tout : List (String × IOSpec)}
    {outs : List (String × Binding)} {tempdir : String} {fd0 : Nat}
    {r : PipesResult}
    (h : setupPipes ti ins tout outs tempdir fd0 = .ok r) :
    ∃ ri ro extra, pipeInputs tempdir ins ti = .ok ri ∧
      pipeOutputs tempdir outs fd0 tout = .ok ro ∧
      stdinPipes ti tout ins = .ok extra ∧
      r.fifos = ri.1 ++ ro.1 ∧ r.opened = ro.2.1 ∧
      r.ipipes = ri.2 ++ extra ∧ r.opipes = ro.2.2.1 ++ stdPipes tout outs := by
  unfold setupPipes at h
  cases h1 : pipeInputs tempdir ins ti with
  | error e =>
    rw [h1] at h
    exact Except.noConfusion h
  | ok ri =>
    obtain ⟨ififos, ips0⟩ := ri
    rw [h1] at h
    cases h2 : pipeOutputs tempdir outs fd0 tout with
    | error e =>
      rw [h2] at h
      exact Except.noConfusion h
    | ok ro =>
      obtain ⟨ofifos, opens, ops0, fdx⟩ := ro
      rw [h2] at h
      cases h3 : stdinPipes ti tout ins with
      | error e =>
        rw [h3] at h
        exact Except.noConfusion h
      | ok extra =>
        rw [h3] at h
        cases h
        exact ⟨(ififos, ips0), (ofifos, opens, ops0, fdx), extra,
          rfl, rfl, rfl, rfl, rfl, rfl, rfl⟩

/-- C7: on success, `_setup_pipes` creates FIFOs exactly for the declared
ports with `stream=true`, `target="filepath"` and a bound value (inputs
first, then outputs, at their scratch-directory paths); only the output
FIFOs are opened host-side, each read-only and non-blocking; every
qualifying input FIFO is registered under its path with a stream-fetch
adapter for its binding, and every qualifying output FIFO's descriptor is
registered with a stream-push adapter.  A qualifying streaming port whose
configured path is absolute makes `_setup_pipes` fail instead. -/
theorem C7_setup_pipes_fifos (ti : List (String × IOSpec))
    (ins : List (String × Binding)) (tout : List (String × IOSpec))
    (outs : List (String × Binding)) (tempdir : String) (fd0 : Nat) :
    (∀ r, setupPipes ti ins tout outs tempdir fd0 = .ok r →
      r.fifos = streamFifoPaths tempdir ins ti ++
        streamFifoPaths tempdir outs tout ∧
      r.opened.map OpenCall.path = streamFifoPaths tempdir outs tout ∧
      (∀ oc ∈ r.opened, oc.rdonly = true ∧ oc.nonblock = true) ∧
      (∀ p ∈ ti, streamQual p.1 p.2 ins →
        ∀ b, ins.lookup p.1 = Option.some b →
          (PipeKey.path (joinPath tempdir (p.2.path.getD p.1)),
            Adapter.fetch b) ∈ r.ipipes) ∧
      (∀ p ∈ tout, streamQual p.1 p.2 outs →
        ∀ b, outs.lookup p.1 = Option.some b →
          ∃ n, OpenCall.mk n (joinPath tempdir (p.2.path.getD p.1)) true true
              ∈ r.opened ∧
            (PipeKey.fd n, Adapter.push b) ∈ r.opipes)) ∧
    (((∃ p ∈ ti, streamQual p.1 p.2 ins ∧
        pyStartsWith (p.2.path.getD p.1) "/" = true) ∨
      (∃ p ∈ tout, streamQual p.1 p.2 outs ∧
        pyStartsWith (p.2.path.getD p.1) "/" = true)) →
      ∀ r, setupPipes ti ins tout outs tempdir fd0 ≠ .ok r) := by
  constructor
  · intro r h
    obtain ⟨ri, ro, extra, h1, h2, h3, hf, hop, hip, hops⟩ := setupPipes_ok_parts h
    obtain ⟨hi1, hi2⟩ := pipeInputs_ok tempdir ins ti ri h1
    obtain ⟨ho1, ho2, ho3, ho4⟩ := pipeOutputs_ok tempdir outs tout fd0 ro h2
    refine ⟨by rw [hf, hi1, ho1], by rw [hop, ho2], ?_, ?_, ?_⟩
    · intro oc hoc
      exact ho3 oc (by rw [hop] at hoc; exact hoc)
    · intro p hp hq b hb
      rw [hip]
      exact List.mem_append_left _ (hi2 p hp hq b hb)
    · intro p hp hq b hb
      obtain ⟨n, hoc, hpm⟩ := ho4 p hp hq b hb
      exact ⟨n, by rw [hop]; exact hoc,
        by rw [hops]; exact List.mem_append_left _ hpm⟩
  · intro hdisj r h
    obtain ⟨ri, ro, extra, h1, h2, h3, _, _, _, _⟩ := setupPipes_ok_parts h
    rcases hdisj with hin | hout
    · exact pipeInputs_error_abs tempdir ins ti hin ri h1
    · exact pipeOutputs_error_abs tempdir outs tout hout fd0 ro h2

def tiC7 : List (String × IOSpec) :=
  [("sin", { id := "sin", target := Option.some "filepath", stream := true })]

def insC7 : List (String × Binding) := [("sin", {})]

def toC7 : List (String × IOSpec) :=
  [("sout", { id := "sout", target := Option.some "filepath", stream := true })]

def outsC7 : List (String × Binding) := [("sout", {})]

def rC7 : PipesResult :=
  ⟨["/tmp/t/sin", "/tmp/t/sout"], [⟨3, "/tmp/t/sout", true, true⟩],
    [(PipeKey.path "/tmp/t/sin", Adapter.fetch {})],
    [(PipeKey.fd 3, Adapter.push {})]⟩

def tiAbs : List (String × IOSpec) :=
  [("sin", { id := "sin", target := Option.some "filepath", stream := true,
             path := Option.some "/abs" })]

/-- Concrete instantiation of `C7_setup_pipes_fifos`: one streaming bound
input and one streaming bound output create exactly the two FIFOs (only
the output one opened, read-only non-blocking), and an absolute streaming
path makes setup fail. -/
theorem C7_setup_pipes_fifos_witness :
    (setupPipes tiC7 insC7 toC7 outsC7 "/tmp/t" 3 = Except.ok rC7 ∧
      (rC7.fifos = streamFifoPaths "/tmp/t" insC7 tiC7 ++
          streamFifoPaths "/tmp/t" outsC7 toC7 ∧
        rC7.opened.map OpenCall.path = streamFifoPaths "/tmp/t" outsC7 toC7 ∧
        (∀ oc ∈ rC7.opened, oc.rdonly = true ∧ oc.nonblock = true) ∧
        (∀ p ∈ tiC7, streamQual p.1 p.2 insC7 →
          ∀ b, insC7.lookup p.1 = Option.some b →
            (PipeKey.path (joinPath "/tmp/t" (p.2.path.getD p.1)),
              Adapter.fetch b) ∈ rC7.ipipes) ∧
        (∀ p ∈ toC7, streamQual p.1 p.2 outsC7 →
          ∀ b, outsC7.lookup p.1 = Option.some b →
            ∃ n, OpenCall.mk n (joinPath "/tmp/t" (p.2.path.getD p.1)) true true
                ∈ rC7.opened ∧
              (PipeKey.fd n, Adapter.push b) ∈ rC7.opipes))) ∧
    ((∃ p ∈ tiAbs, streamQual p.1 p.2 insC7 ∧
        pyStartsWith (p.2.path.getD p.1) "/" = true) ∧
      ∀ r, setupPipes tiAbs insC7 toC7 outsC7 "/tmp/t" 3 ≠ Except.ok r) :=
  ⟨⟨by decide,
    (C7_setup_pipes_fifos tiC7 insC7 toC7 outsC7 "/tmp/t" 3).1 rC7 (by decide)⟩,
   ⟨by decide,
    (C7_setup_pipes_fifos tiAbs insC7 toC7 outsC7 "/tmp/t" 3).2
      (Or.inl (by decide))⟩⟩
